import Mathlib

/-!
Verification development for the file-delivery dispatcher in
`django_sendfile/utils.py` (django-sendfile2).

The embedding models:
* POSIX absolute paths as lists of segments (the parts after the leading `/`),
  with `os.path.normpath` as a left fold collapsing `""`/`"."`/`".."` segments;
* `_sanitize_path` (join requested path onto `SENDFILE_ROOT`, normalize,
  containment check via `Path.relative_to`, i.e. a parts-prefix test);
* HTTP responses as mutable header containers with Django's case-insensitive
  header access;
* the `sendfile` dispatcher: sanitize, resolve backend, existence check,
  mimetype/encoding resolution via `mimetypes.guess_type` (modelled as an
  explicit function parameter), backend invocation, and header finalization
  (Content-Disposition, Content-Length, Content-Type, Content-Encoding).

Python strings are modelled as `List Char`; external stdlib primitives
(`unicodedata.normalize`, `urllib.parse.quote`, `mimetypes.guess_type`) are
modelled explicitly where their behavior matters to the theorems.
-/

namespace DjangoSendfile

/-- Python strings, modelled as lists of characters. -/
abbrev Str := List Char

/-- A single path segment (no `/` inside). -/
abbrev Seg := String

/-- A requested path as handed to `_sanitize_path`: pathlib treats it as
absolute (overriding the root on `/`-join) or relative to the root.
Segments may still contain `".."`, `"."` or `""` entries, which
`os.path.normpath` later collapses. -/
structure ReqPath where
  absolute : Bool
  segs : List Seg
deriving DecidableEq

/-- One step of `os.path.normpath` on an absolute path: drop empty and `"."`
segments, let `".."` pop the last collected segment (at the filesystem root it
is simply dropped, since an absolute path cannot go above `/`). -/
def normStep (acc : List Seg) (s : Seg) : List Seg :=
  if s = "" ∨ s = "." then acc
  else if s = ".." then acc.dropLast
  else acc ++ [s]

/-- `os.path.normpath` on an absolute path, as segment lists. -/
def normAbs (segs : List Seg) : List Seg :=
  segs.foldl normStep []

/-- pathlib's `root / requested`: an absolute requested path replaces the
root, a relative one is appended. -/
def joinPath (root : List Seg) (req : ReqPath) : List Seg :=
  if req.absolute then req.segs else root ++ req.segs

/-- The error classes `_sanitize_path`/`sendfile` can raise:
`ImproperlyConfigured` (missing `SENDFILE_ROOT` or `SENDFILE_BACKEND`) and
`Http404` (containment failure or nonexistent file — a single class, so a
traversal attempt is indistinguishable from a missing file). -/
inductive SendfileError
  | improperlyConfigured
  | http404
deriving DecidableEq

/-- `_sanitize_path`: build `normpath(root / filepath)` and require the root's
parts to be a prefix of the result's parts (`Path.relative_to`); a containment
failure raises `Http404`, a missing root raises `ImproperlyConfigured`. -/
def sanitizePath (rootOpt : Option (List Seg)) (req : ReqPath) :
    Except SendfileError (List Seg) :=
  match rootOpt with
  | none => .error .improperlyConfigured
  | some root =>
    let filepathAbs := normAbs (joinPath root req)
    if root <+: filepathAbs then .ok filepathAbs
    else .error .http404

/-- An ordinary segment: not `""`, `"."` or `".."`, so `normpath` keeps it. -/
def isPlainSeg (s : Seg) : Bool :=
  ¬(s = "" ∨ s = "." ∨ s = "..")

/-- Escape one character of the display filename as the source does with
`.replace("\\", "\\\\").replace('"', r"\"")` (the two sequential replaces
commute into one pass, since neither introduces a new `"`). -/
def escapeChar (c : Char) : List Char :=
  if c = '\\' then ['\\', '\\']
  else if c = '"' then ['\\', '"']
  else [c]

/-- The escaped display filename. -/
def escapeFilename (s : Str) : Str := s.flatMap escapeChar

/-- Modelled Unicode compatibility decomposition (`unicodedata.normalize('NFKD', ...)`)
per code point, restricted to the code points exercised in this development:
U+00E9 (é) decomposes to `e` + U+0301 (combining acute), U+FB01 (the `ﬁ`
ligature) has the compatibility decomposition `fi`; ASCII code points map to
themselves, as under real NFKD. -/
def nfkdChar (c : Char) : List Char :=
  if c.toNat = 233 then ['e', Char.ofNat 769]
  else if c.toNat = 64257 then ['f', 'i']
  else [c]

/-- Modelled from the spec: Unicode canonical decomposition (NFD) per code
point, restricted to the same code points. U+00E9 canonically decomposes to
`e` + U+0301, but U+FB01 has no canonical decomposition (ligature
decompositions are compatibility-only), so it maps to itself. -/
def nfdChar (c : Char) : List Char :=
  if c.toNat = 233 then ['e', Char.ofNat 769]
  else [c]

/-- The ASCII fallback the source computes:
`unicodedata.normalize('NFKD', name).encode('ascii', 'ignore').decode()`,
i.e. NFKD-decompose, then drop every non-ASCII character. -/
def asciiFallback (s : Str) : Str :=
  (s.flatMap nfkdChar).filter (fun c => c.toNat < 128)

/-- Modelled from the spec: the fallback as the spec words it — Unicode
CANONICAL decomposition (NFD) followed by stripping non-ASCII characters. -/
def canonicalAsciiFallback (s : Str) : Str :=
  (s.flatMap nfdChar).filter (fun c => c.toNat < 128)

/-- UTF-8 encoding of a Unicode code point, as a list of byte values. -/
def utf8Bytes (n : Nat) : List Nat :=
  if n < 128 then [n]
  else if n < 2048 then [192 + n / 64, 128 + n % 64]
  else if n < 65536 then [224 + n / 4096, 128 + (n / 64) % 64, 128 + n % 64]
  else [240 + n / 262144, 128 + (n / 4096) % 64, 128 + (n / 64) % 64, 128 + n % 64]

/-- Bytes `urllib.parse.quote` leaves unescaped with the default `safe='/'`:
ASCII alphanumerics, `_`, `.`, `-`, `~` and `/`. -/
def isQuoteSafe (b : Nat) : Bool :=
  decide ((65 ≤ b ∧ b ≤ 90) ∨ (97 ≤ b ∧ b ≤ 122) ∨ (48 ≤ b ∧ b ≤ 57) ∨
    b = 95 ∨ b = 46 ∨ b = 45 ∨ b = 126 ∨ b = 47)

/-- Uppercase hexadecimal digit, as `urllib.parse.quote` emits. -/
def hexUpper (n : Nat) : Char :=
  if n < 10 then Char.ofNat (48 + n) else Char.ofNat (55 + n)

/-- `urllib.parse.quote`: percent-encode the UTF-8 bytes of every character
outside the safe set. -/
def percentQuote (s : Str) : Str :=
  s.flatMap fun c =>
    (utf8Bytes c.toNat).flatMap fun b =>
      if isQuoteSafe b then [Char.ofNat b]
      else ['%', hexUpper (b / 16), hexUpper (b % 16)]

/-- The `attachment_filename` argument: `None` (derive from the resolved
path's base name), `False` (omit the filename parameters) or an explicit
string. -/
inductive AttachmentName
  | default
  | omitted
  | explicit (s : Str)
deriving DecidableEq

/-- First `Content-Disposition` token: `attachment` or `inline`. -/
def firstToken (attachment : Bool) : Str :=
  if attachment then ("attachment".toList) else ("inline".toList)

/-- The filename-bearing part of the parts list: skipped when the (possibly
defaulted) name is falsy; otherwise `filename="<ascii fallback of the escaped
name>"`, plus `filename*=UTF-8''<percent-encoded escaped name>` exactly when
the fallback differs from the escaped name. -/
def dispositionWithName (attachment : Bool) (s : Str) : List Str :=
  if s = [] then [firstToken attachment]
  else if asciiFallback (escapeFilename s) = escapeFilename s then
    [firstToken attachment,
     ("filename=\"".toList) ++ asciiFallback (escapeFilename s) ++ ['"']]
  else
    [firstToken attachment,
     ("filename=\"".toList) ++ asciiFallback (escapeFilename s) ++ ['"'],
     ("filename*=UTF-8".toList) ++ ['\'', '\''] ++ percentQuote (escapeFilename s)]

/-- The `parts` list the source builds for `Content-Disposition`:
`attachment_filename is None` defaults the name to the path's base name,
`False` (falsy) omits the filename parameters. -/
def contentDispositionParts (attachment : Bool) (pathName : Str)
    (attName : AttachmentName) : List Str :=
  match attName with
  | .omitted => [firstToken attachment]
  | .default => dispositionWithName attachment pathName
  | .explicit s => dispositionWithName attachment s

/-- The `Content-Disposition` header value: `'; '.join(parts)`. -/
def contentDispositionValue (attachment : Bool) (pathName : Str)
    (attName : AttachmentName) : Str :=
  List.intercalate ("; ".toList) (contentDispositionParts attachment pathName attName)

/-- Lowercased header name (as its character list): Django's `HttpResponse`
header access is case-insensitive. -/
def lowerName (s : String) : List Char := s.toList.map Char.toLower

/-- An HTTP response as the dispatcher sees it: whether it is Django's
`HttpResponseNotModified`, plus its mutable headers. -/
structure Response where
  notModified : Bool
  headers : List (String × Str)
deriving DecidableEq

/-- `response.get(name)`: case-insensitive header lookup. -/
def hget (name : String) (r : Response) : Option Str :=
  (r.headers.find? (fun q => lowerName q.1 == lowerName name)).map (fun q => q.2)

/-- `response[name] = value`: case-insensitive header assignment (any entry
with the same lowercased name is replaced). -/
def hset (name : String) (v : Str) (r : Response) : Response :=
  { r with
    headers := (name, v) :: r.headers.filter
      (fun q => !(lowerName q.1 == lowerName name)) }

/-- Python truthiness of an optional string: `None` and `''` are falsy. -/
def truthy (o : Option Str) : Bool :=
  match o with
  | none => false
  | some s => !s.isEmpty

/-- Python's `a or b` for optional strings. -/
def pyOr (a b : Option Str) : Option Str :=
  if truthy a then a else b

/-- `mimetypes.guess_type`, modelled as an explicit function from the
resolved path to a `(type, encoding)` pair of optional strings. -/
abbrev GuessFn := List Seg → Option Str × Option Str

/-- The mimetype/encoding resolution block of `sendfile`: guessing runs only
when at least one of the two caller arguments `is None`; inside the branch
each field is the source's Python `or`-chain (so a falsy non-`None` override
is replaced by the guess there). -/
def resolveMeta (guess : GuessFn) (path : List Seg)
    (mimetype encoding : Option Str) : Option Str × Option Str :=
  if mimetype = none ∨ encoding = none then
    (pyOr (pyOr mimetype (guess path).1) (some ("application/octet-stream".toList)),
     pyOr encoding (guess path).2)
  else (mimetype, encoding)

/-- `str.lower` on a mimetype string (ASCII is all that occurs there). -/
def lowerStr (s : Str) : Str := s.map Char.toLower

/-- The value `sendfile` stores into `Content-Type` when it is absent: the
resolved mimetype, with `; charset=<encoding>` appended when the encoding is
truthy and the lowercased mimetype starts with `text`. -/
def mimeWithCharset (mimetype encoding : Option Str) : Str :=
  if truthy encoding && List.isPrefixOf ("text".toList) (lowerStr (mimetype.getD [])) then
    (mimetype.getD []) ++ ("; charset=".toList) ++ (encoding.getD [])
  else mimetype.getD []

/-- `Path.name` of the resolved path: its final segment (empty at `/`). -/
def basename (p : List Seg) : Str := (p.getLast?.getD ("")).toList

/-- The configured backend's `sendfile(request, filepath, mimetype=...,
encoding=...)` entry point; the opaque request object, which the dispatcher
only threads through unchanged, is already applied. -/
abbrev BackendFn := List Seg → Option Str → Option Str → Response

/-- The Django settings `sendfile` consults: `SENDFILE_ROOT`, and
`SENDFILE_BACKEND` modelled as the imported backend module's `sendfile`
function (`_get_sendfile` raises `ImproperlyConfigured` when it is unset). -/
structure Settings where
  sendfileRoot : Option (List Seg)
  sendfileBackend : Option BackendFn

/-- The filesystem facts `sendfile` consults about the resolved path:
`Path.exists()` and `Path.stat().st_size`. -/
structure FileSystem where
  fileExists : List Seg → Bool
  size : List Seg → Nat

/-- The header-finalization tail of `sendfile` (everything after the
`HttpResponseNotModified` early return, source lines 102-137): set
`Content-Disposition` unconditionally from the freshly built value, set
`Content-Length` (to the file size) and `Content-Type` (with optional
charset) only when absent, and write `Content-Encoding` only when the
resolved encoding is truthy and that header is already present. -/
def finalizeHeaders (attachment : Bool) (pathName : Str)
    (attName : AttachmentName) (mimetype encoding : Option Str) (size : Nat)
    (response : Response) : Response :=
  let r1 := hset "Content-Disposition"
    (contentDispositionValue attachment pathName attName) response
  let r2 := if hget "Content-Length" r1 = none
    then hset "Content-Length" ((Nat.repr size).toList) r1 else r1
  let r3 := if hget "Content-Type" r2 = none
    then hset "Content-Type" (mimeWithCharset mimetype encoding) r2 else r2
  if truthy encoding && (hget "Content-Encoding" r3).isSome
    then hset "Content-Encoding" (encoding.getD []) r3 else r3

/-- The `sendfile` dispatcher of `django_sendfile/utils.py`: sanitize the
requested filename, resolve the backend via `_get_sendfile` (before the
existence check), raise `Http404` for a missing file, resolve
mimetype/encoding, invoke the backend, and — unless the backend returned
`HttpResponseNotModified` — finalize the headers. -/
def sendfile (settings : Settings) (fs : FileSystem) (guess : GuessFn)
    (filename : ReqPath) (attachment : Bool)
    (attachmentFilename : AttachmentName) (mimetype encoding : Option Str) :
    Except SendfileError Response :=
  match sanitizePath settings.sendfileRoot filename with
  | .error e => .error e
  | .ok filepathObj =>
    match settings.sendfileBackend with
    | none => .error .improperlyConfigured
    | some backendFn =>
      if !fs.fileExists filepathObj then .error .http404
      else
        let meta := resolveMeta guess filepathObj mimetype encoding
        let response := backendFn filepathObj meta.1 meta.2
        if response.notModified then .ok response
        else .ok (finalizeHeaders attachment (basename filepathObj)
          attachmentFilename meta.1 meta.2 (fs.size filepathObj) response)

theorem foldl_normStep_plain (l : List Seg) :
    (∀ s ∈ l, isPlainSeg s = true) → ∀ acc, l.foldl normStep acc = acc ++ l := by
  induction l with
  | nil => intro _ acc; simp
  | cons x xs ih =>
    intro h acc
    have hx : isPlainSeg x = true := h x (List.mem_cons_self x xs)
    have hx1 : ¬(x = "" ∨ x = ".") := by
      simp only [isPlainSeg, decide_eq_true_eq] at hx
      tauto
    have hx2 : ¬(x = "..") := by
      simp only [isPlainSeg, decide_eq_true_eq] at hx
      tauto
    have step : normStep acc x = acc ++ [x] := by
      simp only [normStep, if_neg hx1, if_neg hx2]
    simp only [List.foldl_cons, step]
    rw [ih (fun s hs => h s (List.mem_cons_of_mem x hs)) (acc ++ [x])]
    simp

theorem normAbs_plain (l : List Seg) (h : ∀ s ∈ l, isPlainSeg s = true) :
    normAbs l = l := by
  simpa using foldl_normStep_plain l h []

/-- C1: whenever the requested path, joined onto the configured root and
lexically normalized, falls outside the root (the root's parts are not a
prefix of the result's), `_sanitize_path` fails with `Http404` — the same
not-found error class used for missing files, never a distinct
traversal/security signal. -/
theorem sanitize_outside_root_http404 (root : List Seg) (req : ReqPath)
    (h : ¬ root <+: normAbs (joinPath root req)) :
    sanitizePath (some root) req = .error .http404 := by
  simp only [sanitizePath]
  rw [if_neg h]

theorem sanitize_outside_root_http404_witness :
    ¬ ["srv", "files"] <+:
        normAbs (joinPath ["srv", "files"] ⟨false, ["..", "..", "etc", "passwd"]⟩) ∧
    sanitizePath (some ["srv", "files"]) ⟨false, ["..", "..", "etc", "passwd"]⟩
      = .error .http404 :=
  ⟨by decide,
   sanitize_outside_root_http404 ["srv", "files"]
     ⟨false, ["..", "..", "etc", "passwd"]⟩ (by decide)⟩

/-- C2: a requested path whose normalized join lies inside (or equals) the
root resolves to exactly that normalized join; the empty requested path
resolves to the root itself; an absolute requested path is still validated
against the root (prefix test on its own normalized segments) rather than
trusted verbatim. -/
theorem sanitize_inside_root_ok (root : List Seg) (req : ReqPath) :
    (root <+: normAbs (joinPath root req) →
      sanitizePath (some root) req = .ok (normAbs (joinPath root req)))
    ∧ ((∀ s ∈ root, isPlainSeg s = true) →
      sanitizePath (some root) ⟨false, []⟩ = .ok root)
    ∧ (req.absolute = true → ¬ root <+: normAbs req.segs →
      sanitizePath (some root) req = .error .http404) := by
  refine ⟨?_, ?_, ?_⟩
  · intro h
    simp only [sanitizePath]
    rw [if_pos h]
  · intro hroot
    have hnorm : normAbs (joinPath root ⟨false, []⟩) = root := by
      simp only [joinPath, List.append_nil]
      exact normAbs_plain root hroot
    simp only [sanitizePath, hnorm]
    rw [if_pos (List.prefix_refl root)]
  · intro habs h
    have hjoin : joinPath root req = req.segs := by
      simp [joinPath, habs]
    simp only [sanitizePath, hjoin]
    rw [if_neg h]

theorem mem_escapeFilename {c : Char} {s : Str} (h : c ∈ escapeFilename s) :
    c ∈ s ∨ c = '\\' ∨ c = '"' := by
  rw [escapeFilename, List.mem_flatMap] at h
  rcases h with ⟨a, ha, hc⟩
  by_cases h1 : a = '\\'
  · simp [escapeChar, h1] at hc
    exact Or.inr (Or.inl hc)
  · by_cases h2 : a = '"'
    · simp [escapeChar, h1, h2] at hc
      rcases hc with hc | hc
      · exact Or.inr (Or.inl hc)
      · exact Or.inr (Or.inr hc)
    · simp [escapeChar, h1, h2] at hc
      exact Or.inl (hc ▸ ha)

theorem escapeFilename_mem_of_nonascii {c : Char} {s : Str} (h : c ∈ s)
    (hbig : 128 ≤ c.toNat) : c ∈ escapeFilename s := by
  rw [escapeFilename, List.mem_flatMap]
  refine ⟨c, h, ?_⟩
  have h1 : c ≠ '\\' := by
    intro he
    subst he
    simp at hbig
  have h2 : c ≠ '"' := by
    intro he
    subst he
    simp at hbig
  simp [escapeChar, h1, h2]

theorem nfkdChar_ascii {c : Char} (h : c.toNat < 128) : nfkdChar c = [c] := by
  have h1 : ¬ c.toNat = 233 := by omega
  have h2 : ¬ c.toNat = 64257 := by omega
  simp [nfkdChar, h1, h2]

theorem flatMap_nfkdChar_ascii {s : Str} (h : ∀ c ∈ s, c.toNat < 128) :
    s.flatMap nfkdChar = s := by
  induction s with
  | nil => simp
  | cons x xs ih =>
    rw [List.flatMap_cons, nfkdChar_ascii (h x (List.mem_cons_self x xs)),
      ih (fun c hc => h c (List.mem_cons_of_mem x hc))]
    simp

theorem asciiFallback_ascii {s : Str} (h : ∀ c ∈ s, c.toNat < 128) :
    asciiFallback s = s := by
  rw [asciiFallback, flatMap_nfkdChar_ascii h]
  exact List.filter_eq_self.mpr (fun a ha => by simpa using h a ha)

theorem asciiFallback_all_ascii (s : Str) :
    ∀ c ∈ asciiFallback s, c.toNat < 128 := by
  intro c hc
  rw [asciiFallback] at hc
  simpa using (List.mem_filter.mp hc).2

theorem isPrefixOf_mismatch (x : List Char) {a b : Char} (h : (a == b) = false)
    (p q : List Char) :
    List.isPrefixOf (x ++ a :: p) (x ++ b :: q) = false := by
  induction x with
  | nil => simp [List.isPrefixOf, h]
  | cons c cs ih => simp [List.isPrefixOf, ih]

theorem firstToken_no_fn (b : Bool) :
    List.isPrefixOf ("filename=".toList) (firstToken b) = false := by
  cases b <;> decide

theorem firstToken_no_star (b : Bool) :
    List.isPrefixOf ("filename*=".toList) (firstToken b) = false := by
  cases b <;> decide

theorem plain_has_fn (ascii : Str) :
    List.isPrefixOf ("filename=".toList) (("filename=\"".toList) ++ ascii ++ ['"'])
      = true := by
  rw [List.isPrefixOf_iff_prefix]
  have h1 : "filename=".toList <+: "filename=\"".toList := by decide
  exact (h1.trans (List.prefix_append _ _)).trans (List.prefix_append _ _)

theorem plain_no_star (ascii : Str) :
    List.isPrefixOf ("filename*=".toList) (("filename=\"".toList) ++ ascii ++ ['"'])
      = false := by
  have e1 : "filename*=".toList = "filename".toList ++ '*' :: ['='] := by decide
  have e0 : "filename=\"".toList = "filename".toList ++ ['=', '"'] := by decide
  have e2 : ("filename=\"".toList) ++ ascii ++ ['"']
      = "filename".toList ++ '=' :: ('"' :: (ascii ++ ['"'])) := by
    rw [e0]
    simp
  rw [e1, e2]
  exact isPrefixOf_mismatch _ (by decide) _ _

theorem star_has_star (q : Str) :
    List.isPrefixOf ("filename*=".toList)
      (("filename*=UTF-8".toList) ++ ['\'', '\''] ++ q) = true := by
  rw [List.isPrefixOf_iff_prefix]
  have h1 : "filename*=".toList <+: "filename*=UTF-8".toList := by decide
  exact (h1.trans (List.prefix_append _ _)).trans (List.prefix_append _ _)

theorem star_no_fn (q : Str) :
    List.isPrefixOf ("filename=".toList)
      (("filename*=UTF-8".toList) ++ ['\'', '\''] ++ q) = false := by
  have e1 : "filename=".toList = "filename".toList ++ '=' :: ([] : List Char) := by
    decide
  have e0 : "filename*=UTF-8".toList
      = "filename".toList ++ '*' :: ("=UTF-8".toList) := by decide
  have e2 : ("filename*=UTF-8".toList) ++ ['\'', '\''] ++ q
      = "filename".toList ++ '*' :: (("=UTF-8".toList) ++ (['\'', '\''] ++ q)) := by
    rw [e0]
    simp
  rw [e1, e2]
  exact isPrefixOf_mismatch _ (by decide) _ _

theorem sanitize_inside_root_ok_witness :
    (sanitizePath (some ["srv", "files"]) ⟨false, ["docs", "a.txt"]⟩
      = .ok (normAbs (joinPath ["srv", "files"] ⟨false, ["docs", "a.txt"]⟩))) ∧
    (sanitizePath (some ["srv", "files"]) ⟨false, []⟩ = .ok ["srv", "files"]) ∧
    (sanitizePath (some ["srv", "files"]) ⟨true, ["etc", "passwd"]⟩
      = .error .http404) :=
  ⟨(sanitize_inside_root_ok ["srv", "files"] ⟨false, ["docs", "a.txt"]⟩).1 (by decide),
   (sanitize_inside_root_ok ["srv", "files"] ⟨false, []⟩).2.1 (by decide),
   (sanitize_inside_root_ok ["srv", "files"] ⟨true, ["etc", "passwd"]⟩).2.2 rfl (by decide)⟩

theorem countP_pair_one (p : Str → Bool) (a b : Str) (ha : p a = false)
    (hb : p b = true) : List.countP p [a, b] = 1 := by
  simp [List.countP_cons, List.countP_nil, ha, hb]

theorem countP_pair_zero (p : Str → Bool) (a b : Str) (ha : p a = false)
    (hb : p b = false) : List.countP p [a, b] = 0 := by
  simp [List.countP_cons, List.countP_nil, ha, hb]

theorem countP_triple_mid (p : Str → Bool) (a b c : Str) (ha : p a = false)
    (hb : p b = true) (hc : p c = false) : List.countP p [a, b, c] = 1 := by
  simp [List.countP_cons, List.countP_nil, ha, hb, hc]

theorem countP_triple_last (p : Str → Bool) (a b c : Str) (ha : p a = false)
    (hb : p b = false) (hc : p c = true) : List.countP p [a, b, c] = 1 := by
  simp [List.countP_cons, List.countP_nil, ha, hb, hc]

/-- C3: for a non-omitted, non-empty display filename, the built
`Content-Disposition` parts contain exactly one `filename=` parameter and no
`filename*=` parameter when the filename is pure ASCII, and exactly one of
each when it contains a non-ASCII character; the header value is the parts
joined by `"; "`. -/
theorem disposition_param_shape (attachment : Bool) (pathName f : Str)
    (hf : f ≠ []) :
    ((∀ c ∈ f, c.toNat < 128) →
      (contentDispositionParts attachment pathName (.explicit f)).countP
          (fun p => List.isPrefixOf ("filename=".toList) p) = 1 ∧
      (contentDispositionParts attachment pathName (.explicit f)).countP
          (fun p => List.isPrefixOf ("filename*=".toList) p) = 0)
    ∧ ((∃ c ∈ f, 128 ≤ c.toNat) →
      (contentDispositionParts attachment pathName (.explicit f)).countP
          (fun p => List.isPrefixOf ("filename=".toList) p) = 1 ∧
      (contentDispositionParts attachment pathName (.explicit f)).countP
          (fun p => List.isPrefixOf ("filename*=".toList) p) = 1)
    ∧ contentDispositionValue attachment pathName (.explicit f)
        = List.intercalate ("; ".toList)
            (contentDispositionParts attachment pathName (.explicit f)) := by
  refine ⟨?_, ?_, rfl⟩
  · intro hascii
    have hesc : ∀ c ∈ escapeFilename f, c.toNat < 128 := by
      intro c hc
      rcases mem_escapeFilename hc with h | h | h
      · exact hascii c h
      · subst h; decide
      · subst h; decide
    have heq : asciiFallback (escapeFilename f) = escapeFilename f :=
      asciiFallback_ascii hesc
    simp only [contentDispositionParts, dispositionWithName, if_neg hf, if_pos heq]
    exact ⟨countP_pair_one _ _ _ (firstToken_no_fn attachment) (plain_has_fn _),
      countP_pair_zero _ _ _ (firstToken_no_star attachment) (plain_no_star _)⟩
  · intro hbig
    rcases hbig with ⟨c, hcf, hc⟩
    have hcesc : c ∈ escapeFilename f := escapeFilename_mem_of_nonascii hcf hc
    have hne : ¬ asciiFallback (escapeFilename f) = escapeFilename f := by
      intro he
      have hmem : c ∈ asciiFallback (escapeFilename f) := by
        rw [he]
        exact hcesc
      have hlt := asciiFallback_all_ascii (escapeFilename f) c hmem
      omega
    simp only [contentDispositionParts, dispositionWithName, if_neg hf, if_neg hne]
    exact ⟨countP_triple_mid _ _ _ _ (firstToken_no_fn attachment) (plain_has_fn _)
        (star_no_fn _),
      countP_triple_last _ _ _ _ (firstToken_no_star attachment) (plain_no_star _)
        (star_has_star _)⟩

theorem disposition_param_shape_witness :
    ((contentDispositionParts true [] (.explicit ("report.pdf".toList))).countP
        (fun p => List.isPrefixOf ("filename=".toList) p) = 1 ∧
     (contentDispositionParts true [] (.explicit ("report.pdf".toList))).countP
        (fun p => List.isPrefixOf ("filename*=".toList) p) = 0) ∧
    ((contentDispositionParts false []
        (.explicit (("caf".toList) ++ [Char.ofNat 233] ++ (".pdf".toList)))).countP
        (fun p => List.isPrefixOf ("filename=".toList) p) = 1 ∧
     (contentDispositionParts false []
        (.explicit (("caf".toList) ++ [Char.ofNat 233] ++ (".pdf".toList)))).countP
        (fun p => List.isPrefixOf ("filename*=".toList) p) = 1) :=
  ⟨(disposition_param_shape true [] ("report.pdf".toList) (by decide)).1
      (by decide),
   (disposition_param_shape false []
      (("caf".toList) ++ [Char.ofNat 233] ++ (".pdf".toList)) (by decide)).2.1
      ⟨Char.ofNat 233, by decide, by decide⟩⟩

/-- C9 counterexample: for the ligature `ﬁ` (U+FB01) the fallback the code
computes (NFKD compatibility decomposition, then strip non-ASCII) yields
`fi`, while canonical decomposition followed by stripping yields the empty
string — so the fallback does not equal the canonical-decomposition form. -/
theorem asciiFallback_not_canonical :
    asciiFallback [Char.ofNat 64257] ≠ canonicalAsciiFallback [Char.ofNat 64257] := by
  decide

/-- C9 (amended): for every non-empty display filename, the `filename=`
parameter carries exactly the result of Unicode COMPATIBILITY decomposition
(NFKD) of the escaped filename followed by stripping every non-ASCII
character. -/
theorem disposition_fallback_nfkd (attachment : Bool) (pathName f : Str)
    (hf : f ≠ []) :
    (("filename=\"".toList)
        ++ ((escapeFilename f).flatMap nfkdChar).filter (fun c => c.toNat < 128)
        ++ ['"'])
      ∈ contentDispositionParts attachment pathName (.explicit f) := by
  simp only [contentDispositionParts, dispositionWithName, if_neg hf]
  split <;> simp [asciiFallback]

theorem disposition_fallback_nfkd_witness :
    (("filename=\"".toList)
        ++ ((escapeFilename (("caf".toList) ++ [Char.ofNat 233] ++ (".pdf".toList))).flatMap
              nfkdChar).filter (fun c => c.toNat < 128)
        ++ ['"'])
      ∈ contentDispositionParts true []
          (.explicit (("caf".toList) ++ [Char.ofNat 233] ++ (".pdf".toList))) :=
  disposition_fallback_nfkd true []
    (("caf".toList) ++ [Char.ofNat 233] ++ (".pdf".toList)) (by decide)

theorem hget_ext (h h' : String) (r : Response)
    (hn : lowerName h = lowerName h') : hget h r = hget h' r := by
  simp [hget, hn]

theorem hget_hset_self {t h : String} (hn : lowerName t = lowerName h)
    (v : Str) (r : Response) : hget h (hset t v r) = some v := by
  unfold hget hset
  rw [List.find?_cons_of_pos _ (by simpa using hn)]
  rfl

theorem find?_filter_of_imp {α : Type} (l : List α) (pred q : α → Bool)
    (himp : ∀ a, pred a = true → q a = true) :
    (l.filter q).find? pred = l.find? pred := by
  induction l with
  | nil => rfl
  | cons x xs ih =>
    by_cases hq : q x = true
    · rw [List.filter_cons_of_pos hq]
      by_cases hp : pred x = true
      · rw [List.find?_cons_of_pos _ hp, List.find?_cons_of_pos _ hp]
      · rw [List.find?_cons_of_neg _ hp, List.find?_cons_of_neg _ hp]
        exact ih
    · have hp : ¬ pred x = true := fun hc => hq (himp x hc)
      rw [List.filter_cons_of_neg hq, List.find?_cons_of_neg _ hp]
      exact ih

theorem hget_hset_other {t h : String} (hn : lowerName t ≠ lowerName h)
    (v : Str) (r : Response) : hget h (hset t v r) = hget h r := by
  unfold hget hset
  rw [List.find?_cons_of_neg _ (by simpa using hn)]
  rw [find?_filter_of_imp]
  intro a ha
  have ha' : lowerName a.1 = lowerName h := by simpa using ha
  have hgoal : (lowerName a.1 == lowerName t) = false := by
    rw [ha']
    exact beq_eq_false_iff_ne.mpr (fun hc => hn hc.symm)
  simp [hgoal]

theorem hget_condSet_other {t h : String} (hn : lowerName t ≠ lowerName h)
    (c : Prop) [Decidable c] (v : Str) (r : Response) :
    hget h (if c then hset t v r else r) = hget h r := by
  split
  · exact hget_hset_other hn v r
  · rfl

theorem finalizeHeaders_cd (att : Bool) (pn : Str) (an : AttachmentName)
    (m e : Option Str) (sz : Nat) (resp : Response) :
    hget "Content-Disposition" (finalizeHeaders att pn an m e sz resp)
      = some (contentDispositionValue att pn an) := by
  simp only [finalizeHeaders]
  set r1 := hset "Content-Disposition" (contentDispositionValue att pn an) resp with hr1
  set r2 := if hget "Content-Length" r1 = none
    then hset "Content-Length" ((Nat.repr sz).toList) r1 else r1 with hr2
  set r3 := if hget "Content-Type" r2 = none
    then hset "Content-Type" (mimeWithCharset m e) r2 else r2 with hr3
  have h1 : hget "Content-Disposition" r1 = some (contentDispositionValue att pn an) := by
    rw [hr1]
    exact hget_hset_self rfl _ _
  have h2 : hget "Content-Disposition" r2 = some (contentDispositionValue att pn an) := by
    rw [hr2, hget_condSet_other (by decide)]
    exact h1
  have h3 : hget "Content-Disposition" r3 = some (contentDispositionValue att pn an) := by
    rw [hr3, hget_condSet_other (by decide)]
    exact h2
  rw [hget_condSet_other (by decide)]
  exact h3

theorem finalizeHeaders_cl (att : Bool) (pn : Str) (an : AttachmentName)
    (m e : Option Str) (sz : Nat) (resp : Response) :
    hget "Content-Length" (finalizeHeaders att pn an m e sz resp)
      = if hget "Content-Length" resp = none
        then some ((Nat.repr sz).toList) else hget "Content-Length" resp := by
  simp only [finalizeHeaders]
  set r1 := hset "Content-Disposition" (contentDispositionValue att pn an) resp with hr1
  set r2 := if hget "Content-Length" r1 = none
    then hset "Content-Length" ((Nat.repr sz).toList) r1 else r1 with hr2
  set r3 := if hget "Content-Type" r2 = none
    then hset "Content-Type" (mimeWithCharset m e) r2 else r2 with hr3
  have h1 : hget "Content-Length" r1 = hget "Content-Length" resp := by
    rw [hr1]
    exact hget_hset_other (by decide) _ _
  have h2 : hget "Content-Length" r2
      = if hget "Content-Length" resp = none
        then some ((Nat.repr sz).toList) else hget "Content-Length" resp := by
    rw [hr2, h1]
    by_cases hc : hget "Content-Length" resp = none
    · rw [if_pos hc, if_pos hc]
      exact hget_hset_self rfl _ _
    · rw [if_neg hc, if_neg hc]
      exact h1
  have h3 : hget "Content-Length" r3
      = if hget "Content-Length" resp = none
        then some ((Nat.repr sz).toList) else hget "Content-Length" resp := by
    rw [hr3, hget_condSet_other (by decide)]
    exact h2
  rw [hget_condSet_other (by decide)]
  exact h3

theorem finalizeHeaders_ct (att : Bool) (pn : Str) (an : AttachmentName)
    (m e : Option Str) (sz : Nat) (resp : Response) :
    hget "Content-Type" (finalizeHeaders att pn an m e sz resp)
      = if hget "Content-Type" resp = none
        then some (mimeWithCharset m e) else hget "Content-Type" resp := by
  simp only [finalizeHeaders]
  set r1 := hset "Content-Disposition" (contentDispositionValue att pn an) resp with hr1
  set r2 := if hget "Content-Length" r1 = none
    then hset "Content-Length" ((Nat.repr sz).toList) r1 else r1 with hr2
  set r3 := if hget "Content-Type" r2 = none
    then hset "Content-Type" (mimeWithCharset m e) r2 else r2 with hr3
  have h1 : hget "Content-Type" r1 = hget "Content-Type" resp := by
    rw [hr1]
    exact hget_hset_other (by decide) _ _
  have h2 : hget "Content-Type" r2 = hget "Content-Type" resp := by
    rw [hr2, hget_condSet_other (by decide)]
    exact h1
  have h3 : hget "Content-Type" r3
      = if hget "Content-Type" resp = none
        then some (mimeWithCharset m e) else hget "Content-Type" resp := by
    rw [hr3, h2]
    by_cases hc : hget "Content-Type" resp = none
    · rw [if_pos hc, if_pos hc]
      exact hget_hset_self rfl _ _
    · rw [if_neg hc, if_neg hc]
      exact h2
  rw [hget_condSet_other (by decide)]
  exact h3

theorem finalizeHeaders_ce (att : Bool) (pn : Str) (an : AttachmentName)
    (m e : Option Str) (sz : Nat) (resp : Response) :
    hget "Content-Encoding" (finalizeHeaders att pn an m e sz resp)
      = if truthy e && (hget "Content-Encoding" resp).isSome
        then some (e.getD []) else hget "Content-Encoding" resp := by
  simp only [finalizeHeaders]
  set r1 := hset "Content-Disposition" (contentDispositionValue att pn an) resp with hr1
  set r2 := if hget "Content-Length" r1 = none
    then hset "Content-Length" ((Nat.repr sz).toList) r1 else r1 with hr2
  set r3 := if hget "Content-Type" r2 = none
    then hset "Content-Type" (mimeWithCharset m e) r2 else r2 with hr3
  have h1 : hget "Content-Encoding" r1 = hget "Content-Encoding" resp := by
    rw [hr1]
    exact hget_hset_other (by decide) _ _
  have h2 : hget "Content-Encoding" r2 = hget "Content-Encoding" resp := by
    rw [hr2, hget_condSet_other (by decide)]
    exact h1
  have h3 : hget "Content-Encoding" r3 = hget "Content-Encoding" resp := by
    rw [hr3, hget_condSet_other (by decide)]
    exact h2
  rw [h3]
  by_cases hc : (truthy e && (hget "Content-Encoding" resp).isSome) = true
  · rw [if_pos hc, if_pos hc]
    exact hget_hset_self rfl _ _
  · rw [if_neg hc, if_neg hc]
    exact h3

theorem finalizeHeaders_untouched {h : String} (att : Bool) (pn : Str)
    (an : AttachmentName) (m e : Option Str) (sz : Nat) (resp : Response)
    (h1 : lowerName h ≠ lowerName "Content-Disposition")
    (h2 : lowerName h ≠ lowerName "Content-Length")
    (h3 : lowerName h ≠ lowerName "Content-Type")
    (h4 : lowerName h ≠ lowerName "Content-Encoding") :
    hget h (finalizeHeaders att pn an m e sz resp) = hget h resp := by
  simp only [finalizeHeaders]
  set r1 := hset "Content-Disposition" (contentDispositionValue att pn an) resp with hr1
  set r2 := if hget "Content-Length" r1 = none
    then hset "Content-Length" ((Nat.repr sz).toList) r1 else r1 with hr2
  set r3 := if hget "Content-Type" r2 = none
    then hset "Content-Type" (mimeWithCharset m e) r2 else r2 with hr3
  have g1 : hget h r1 = hget h resp := by
    rw [hr1]
    exact hget_hset_other (Ne.symm h1) _ _
  have g2 : hget h r2 = hget h resp := by
    rw [hr2, hget_condSet_other (Ne.symm h2)]
    exact g1
  have g3 : hget h r3 = hget h resp := by
    rw [hr3, hget_condSet_other (Ne.symm h3)]
    exact g2
  rw [hget_condSet_other (Ne.symm h4)]
  exact g3

/-- C4: when the backend returns an `HttpResponseNotModified` response, the
dispatcher returns that very response object immediately and unchanged — in
particular no `Content-Disposition`, `Content-Length`, `Content-Type` or
`Content-Encoding` header is added or modified. -/
theorem sendfile_not_modified_unchanged (settings : Settings) (fs : FileSystem)
    (guess : GuessFn) (filename : ReqPath) (att : Bool) (an : AttachmentName)
    (m e : Option Str) (bf : BackendFn) (p : List Seg) (resp : Response)
    (hback : settings.sendfileBackend = some bf)
    (hsan : sanitizePath settings.sendfileRoot filename = .ok p)
    (hex : fs.fileExists p = true)
    (hresp : bf p (resolveMeta guess p m e).1 (resolveMeta guess p m e).2 = resp)
    (hnm : resp.notModified = true) :
    sendfile settings fs guess filename att an m e = .ok resp := by
  simp [sendfile, hsan, hback, hex, hresp, hnm]

theorem sendfile_not_modified_unchanged_witness :
    sendfile ⟨some ["srv"], some (fun _ _ _ => ⟨true, [("ETag", ("x".toList))]⟩)⟩
        ⟨fun _ => true, fun _ => 0⟩ (fun _ => (none, none)) ⟨false, ["a"]⟩
        false .default none none
      = .ok ⟨true, [("ETag", ("x".toList))]⟩ :=
  sendfile_not_modified_unchanged _ _ _ _ _ _ _ _
    (fun _ _ _ => ⟨true, [("ETag", ("x".toList))]⟩) ["srv", "a"]
    ⟨true, [("ETag", ("x".toList))]⟩ rfl rfl rfl rfl rfl

/-- C10: `sendfile` resolves the backend through `_get_sendfile` before the
filesystem existence check, so with no `SENDFILE_BACKEND` configured and an
in-root resolved path that does not exist on disk, the call fails with the
configuration error, not with `Http404`. -/
theorem sendfile_backend_resolved_before_exists (settings : Settings)
    (fs : FileSystem) (guess : GuessFn) (filename : ReqPath) (att : Bool)
    (an : AttachmentName) (m e : Option Str) (p : List Seg)
    (hback : settings.sendfileBackend = none)
    (hsan : sanitizePath settings.sendfileRoot filename = .ok p)
    (hex : fs.fileExists p = false) :
    sendfile settings fs guess filename att an m e
      = .error .improperlyConfigured := by
  simp [sendfile, hsan, hback]

theorem sendfile_backend_resolved_before_exists_witness :
    sendfile ⟨some ["srv"], none⟩ ⟨fun _ => false, fun _ => 0⟩
        (fun _ => (none, none)) ⟨false, ["missing.txt"]⟩ false .default none none
      = .error .improperlyConfigured :=
  sendfile_backend_resolved_before_exists _ _ _ _ _ _ _ _
    ["srv", "missing.txt"] rfl rfl rfl

/-- C5 counterexample: an explicitly supplied but empty-string mimetype does
NOT win over guessing — with no encoding supplied the guessing branch runs
and Python's `or`-chain treats the falsy `''` as absent, so the guess
replaces it. -/
theorem resolveMeta_empty_override_loses :
    (resolveMeta (fun _ => (some ("text/html".toList), none)) ["a"]
        (some []) none).1 ≠ some [] := by
  decide

/-- C5 (amended): a supplied NON-EMPTY mimetype or encoding override wins
over guessing for its own field; when both arguments are supplied the
guesser is not consulted at all (the result is independent of it); and when
no mimetype is supplied and guessing yields no media type, the resolved
mimetype is `application/octet-stream`. (An explicitly supplied empty string
is the exception the counterexample exhibits.) -/
theorem resolveMeta_override_rules (guess guess2 : GuessFn) (path : List Seg)
    (m e : Option Str) (ms es : Str) :
    (ms ≠ [] → (resolveMeta guess path (some ms) e).1 = some ms)
    ∧ (es ≠ [] → (resolveMeta guess path m (some es)).2 = some es)
    ∧ resolveMeta guess path (some ms) (some es)
        = resolveMeta guess2 path (some ms) (some es)
    ∧ ((guess path).1 = none →
        (resolveMeta guess path none e).1
          = some ("application/octet-stream".toList)) := by
  refine ⟨?_, ?_, ?_, ?_⟩
  · intro hms
    cases ms with
    | nil => exact absurd rfl hms
    | cons a l =>
      cases e with
      | none => simp [resolveMeta, pyOr, truthy]
      | some es' => simp [resolveMeta, pyOr, truthy]
  · intro hes
    cases es with
    | nil => exact absurd rfl hes
    | cons a l =>
      cases m with
      | none => simp [resolveMeta, pyOr, truthy]
      | some ms' => simp [resolveMeta, pyOr, truthy]
  · simp [resolveMeta]
  · intro hg
    simp [resolveMeta, pyOr, truthy, hg]

theorem resolveMeta_override_rules_witness :
    (resolveMeta (fun _ => (some ("a/b".toList), some ("br".toList))) ["p"]
        (some ("text/plain".toList)) none).1 = some ("text/plain".toList)
    ∧ (resolveMeta (fun _ => (some ("a/b".toList), some ("br".toList))) ["p"]
        none (some ("gzip".toList))).2 = some ("gzip".toList)
    ∧ resolveMeta (fun _ => (some ("a/b".toList), some ("br".toList))) ["p"]
        (some ("text/plain".toList)) (some ("gzip".toList))
      = resolveMeta (fun _ => (none, none)) ["p"]
        (some ("text/plain".toList)) (some ("gzip".toList))
    ∧ (resolveMeta (fun _ => (none, none)) ["p"] none none).1
      = some ("application/octet-stream".toList) :=
  ⟨(resolveMeta_override_rules (fun _ => (some ("a/b".toList), some ("br".toList)))
      (fun _ => (none, none)) ["p"] none none ("text/plain".toList)
      ("gzip".toList)).1 (by decide),
   (resolveMeta_override_rules (fun _ => (some ("a/b".toList), some ("br".toList)))
      (fun _ => (none, none)) ["p"] none none ("text/plain".toList)
      ("gzip".toList)).2.1 (by decide),
   (resolveMeta_override_rules (fun _ => (some ("a/b".toList), some ("br".toList)))
      (fun _ => (none, none)) ["p"] none none ("text/plain".toList)
      ("gzip".toList)).2.2.1,
   (resolveMeta_override_rules (fun _ => (none, none))
      (fun _ => (none, none)) ["p"] none none ("text/plain".toList)
      ("gzip".toList)).2.2.2 rfl⟩

/-- C6: on a dispatch not short-circuited by not-modified, `Content-Encoding`
is written only when the resolved encoding is truthy AND the header is
already present on the backend response; consequently the dispatcher never
establishes `Content-Encoding` on a response that lacks it, and leaves it
untouched whenever the resolved encoding is falsy. -/
theorem sendfile_content_encoding_rule (settings : Settings) (fs : FileSystem)
    (guess : GuessFn) (filename : ReqPath) (att : Bool) (an : AttachmentName)
    (m e : Option Str) (bf : BackendFn) (p : List Seg)
    (meta : Option Str × Option Str) (resp : Response)
    (hback : settings.sendfileBackend = some bf)
    (hsan : sanitizePath settings.sendfileRoot filename = .ok p)
    (hex : fs.fileExists p = true)
    (hmeta : resolveMeta guess p m e = meta)
    (hresp : bf p meta.1 meta.2 = resp)
    (hnm : resp.notModified = false) :
    sendfile settings fs guess filename att an m e
      = .ok (finalizeHeaders att (basename p) an meta.1 meta.2 (fs.size p) resp)
    ∧ (hget "Content-Encoding" resp = none →
        hget "Content-Encoding"
          (finalizeHeaders att (basename p) an meta.1 meta.2 (fs.size p) resp)
          = none)
    ∧ (truthy meta.2 = false →
        hget "Content-Encoding"
          (finalizeHeaders att (basename p) an meta.1 meta.2 (fs.size p) resp)
          = hget "Content-Encoding" resp)
    ∧ (∀ v, truthy meta.2 = true → hget "Content-Encoding" resp = some v →
        hget "Content-Encoding"
          (finalizeHeaders att (basename p) an meta.1 meta.2 (fs.size p) resp)
          = some (meta.2.getD [])) := by
  refine ⟨?_, ?_, ?_, ?_⟩
  · simp [sendfile, hsan, hback, hex, hmeta, hresp, hnm]
  · intro hnone
    rw [finalizeHeaders_ce]
    simp [hnone]
  · intro hfalsy
    rw [finalizeHeaders_ce]
    simp [hfalsy]
  · intro v ht hv
    rw [finalizeHeaders_ce]
    simp [ht, hv]

theorem sendfile_content_encoding_rule_witness :
    hget "Content-Encoding"
      (finalizeHeaders false (basename ["srv", "a"]) .default
        (some ("application/octet-stream".toList)) none 5 ⟨false, []⟩) = none :=
  (sendfile_content_encoding_rule ⟨some ["srv"], some (fun _ _ _ => ⟨false, []⟩)⟩
      ⟨fun _ => true, fun _ => 5⟩ (fun _ => (none, none)) ⟨false, ["a"]⟩ false
      .default none none (fun _ _ _ => ⟨false, []⟩) ["srv", "a"]
      (some ("application/octet-stream".toList), none) ⟨false, []⟩
      rfl rfl rfl rfl rfl rfl).2.1 rfl

/-- C7: on a dispatch not short-circuited by not-modified, `Content-Length`
is set to the file's byte size only when absent on the backend response, and
`Content-Type` is set only when absent, appending `; charset=<encoding>` to
the type value itself when the resolved encoding is truthy and the mimetype
is textual; backend-set values of either header are left untouched. -/
theorem sendfile_length_type_when_absent (settings : Settings)
    (fs : FileSystem) (guess : GuessFn) (filename : ReqPath) (att : Bool)
    (an : AttachmentName) (m e : Option Str) (bf : BackendFn) (p : List Seg)
    (meta : Option Str × Option Str) (resp : Response)
    (hback : settings.sendfileBackend = some bf)
    (hsan : sanitizePath settings.sendfileRoot filename = .ok p)
    (hex : fs.fileExists p = true)
    (hmeta : resolveMeta guess p m e = meta)
    (hresp : bf p meta.1 meta.2 = resp)
    (hnm : resp.notModified = false) :
    sendfile settings fs guess filename att an m e
      = .ok (finalizeHeaders att (basename p) an meta.1 meta.2 (fs.size p) resp)
    ∧ (∀ v, hget "Content-Length" resp = some v →
        hget "Content-Length"
          (finalizeHeaders att (basename p) an meta.1 meta.2 (fs.size p) resp)
          = some v)
    ∧ (hget "Content-Length" resp = none →
        hget "Content-Length"
          (finalizeHeaders att (basename p) an meta.1 meta.2 (fs.size p) resp)
          = some ((Nat.repr (fs.size p)).toList))
    ∧ (∀ v, hget "Content-Type" resp = some v →
        hget "Content-Type"
          (finalizeHeaders att (basename p) an meta.1 meta.2 (fs.size p) resp)
          = some v)
    ∧ (hget "Content-Type" resp = none →
        hget "Content-Type"
          (finalizeHeaders att (basename p) an meta.1 meta.2 (fs.size p) resp)
          = some (mimeWithCharset meta.1 meta.2))
    ∧ (truthy meta.2 = true →
        List.isPrefixOf ("text".toList) (lowerStr (meta.1.getD [])) = true →
        mimeWithCharset meta.1 meta.2
          = (meta.1.getD []) ++ ("; charset=".toList) ++ (meta.2.getD [])) := by
  refine ⟨?_, ?_, ?_, ?_, ?_, ?_⟩
  · simp [sendfile, hsan, hback, hex, hmeta, hresp, hnm]
  · intro v hv
    rw [finalizeHeaders_cl]
    simp [hv]
  · intro hnone
    rw [finalizeHeaders_cl]
    simp [hnone]
  · intro v hv
    rw [finalizeHeaders_ct]
    simp [hv]
  · intro hnone
    rw [finalizeHeaders_ct]
    simp [hnone]
  · intro ht hpre
    simp [mimeWithCharset, ht, hpre]
    exact List.isPrefixOf_iff_prefix.mp hpre

theorem sendfile_length_type_when_absent_witness :
    hget "Content-Length"
      (finalizeHeaders false (basename ["srv", "b"]) .default
        (some ("application/octet-stream".toList)) none 7 ⟨false, []⟩)
      = some ((Nat.repr 7).toList) :=
  (sendfile_length_type_when_absent ⟨some ["srv"], some (fun _ _ _ => ⟨false, []⟩)⟩
      ⟨fun _ => true, fun _ => 7⟩ (fun _ => (none, none)) ⟨false, ["b"]⟩ false
      .default none none (fun _ _ _ => ⟨false, []⟩) ["srv", "b"]
      (some ("application/octet-stream".toList), none) ⟨false, []⟩
      rfl rfl rfl rfl rfl rfl).2.2.1 rfl

/-- C8 counterexample: the dispatcher does overwrite a backend-set header —
with a backend presetting `Content-Disposition` to `preset`, the dispatched
response carries the freshly built disposition value instead of the
backend's. -/
theorem sendfile_overwrites_preset_disposition :
    (sendfile
        ⟨some ["srv"],
         some (fun _ _ _ =>
           ⟨false, [("Content-Disposition", ("preset".toList))]⟩)⟩
        ⟨fun _ => true, fun _ => 3⟩ (fun _ => (none, none)) ⟨false, ["a.txt"]⟩
        true .default none none).toOption.map
        (fun r => hget "Content-Disposition" r)
      ≠ some (some ("preset".toList)) := by
  decide

/-- C8 (amended): apart from `Content-Disposition`, which is always computed
fresh and set unconditionally, and `Content-Encoding`, which is rewritten to
the resolved encoding when that is truthy and the header is present, the
dispatcher only adds headers that are absent on the backend response and
never overwrites a backend-set value. -/
theorem sendfile_preserves_other_headers (settings : Settings)
    (fs : FileSystem) (guess : GuessFn) (filename : ReqPath) (att : Bool)
    (an : AttachmentName) (m e : Option Str) (bf : BackendFn) (p : List Seg)
    (meta : Option Str × Option Str) (resp : Response)
    (hback : settings.sendfileBackend = some bf)
    (hsan : sanitizePath settings.sendfileRoot filename = .ok p)
    (hex : fs.fileExists p = true)
    (hmeta : resolveMeta guess p m e = meta)
    (hresp : bf p meta.1 meta.2 = resp)
    (hnm : resp.notModified = false) :
    sendfile settings fs guess filename att an m e
      = .ok (finalizeHeaders att (basename p) an meta.1 meta.2 (fs.size p) resp)
    ∧ (∀ h v, lowerName h ≠ lowerName "Content-Disposition" →
        lowerName h ≠ lowerName "Content-Encoding" →
        hget h resp = some v →
        hget h (finalizeHeaders att (basename p) an meta.1 meta.2 (fs.size p) resp)
          = some v)
    ∧ hget "Content-Disposition"
        (finalizeHeaders att (basename p) an meta.1 meta.2 (fs.size p) resp)
      = some (contentDispositionValue att (basename p) an) := by
  refine ⟨?_, ?_, ?_⟩
  · simp [sendfile, hsan, hback, hex, hmeta, hresp, hnm]
  · intro h v hcd hce hv
    by_cases hl : lowerName h = lowerName "Content-Length"
    · rw [hget_ext h "Content-Length" _ hl, finalizeHeaders_cl]
      rw [hget_ext h "Content-Length" resp hl] at hv
      simp [hv]
    · by_cases htt : lowerName h = lowerName "Content-Type"
      · rw [hget_ext h "Content-Type" _ htt, finalizeHeaders_ct]
        rw [hget_ext h "Content-Type" resp htt] at hv
        simp [hv]
      · rw [finalizeHeaders_untouched att (basename p) an meta.1 meta.2
          (fs.size p) resp hcd hl htt hce]
        exact hv
  · exact finalizeHeaders_cd att (basename p) an meta.1 meta.2 (fs.size p) resp

theorem sendfile_preserves_other_headers_witness :
    hget "X-Accel-Redirect"
      (finalizeHeaders false (basename ["srv", "a"]) .default
        (some ("application/octet-stream".toList)) none 7
        ⟨false, [("X-Accel-Redirect", ("/protected/a".toList))]⟩)
      = some ("/protected/a".toList) :=
  (sendfile_preserves_other_headers
      ⟨some ["srv"],
       some (fun _ _ _ =>
         ⟨false, [("X-Accel-Redirect", ("/protected/a".toList))]⟩)⟩
      ⟨fun _ => true, fun _ => 7⟩ (fun _ => (none, none)) ⟨false, ["a"]⟩ false
      .default none none
      (fun _ _ _ => ⟨false, [("X-Accel-Redirect", ("/protected/a".toList))]⟩)
      ["srv", "a"] (some ("application/octet-stream".toList), none)
      ⟨false, [("X-Accel-Redirect", ("/protected/a".toList))]⟩
      rfl rfl rfl rfl rfl rfl).2.1 "X-Accel-Redirect" ("/protected/a".toList)
      (by decide) (by decide) rfl
